import Mathlib

set_option maxRecDepth 100000

/-!
# Verification of the zipstream streaming ZIP reader

A shallow embedding, in Lean 4, of the streaming ZIP extractor implemented in
the repository (package `zipstream`: the reader driver, local-file-header
parsing, extra-field parsing, time reconstruction, the data-descriptor
protocol, and the checksum / raw read paths).

Modelling conventions:
* A byte stream is a `List Nat` (each element a byte value `< 256` in every
  reachable state; the decoders use little-endian accumulation exactly as
  `readBuf.uint16/uint32/uint64` do in `utils.go`).
* `io.ReadFull` is modelled by `readFull`: success returns the requested
  prefix and the rest of the stream; an empty stream yields `io.EOF`
  (`ZErr.eofErr`) and a partial read yields `io.ErrUnexpectedEOF`
  (`ZErr.unexpectedEOF`), matching the Go contract.
* Machine integers are `Nat`/`Int`; Go's `uint64(...)` conversions of values
  that already fit are identities and 64-bit wrap-around is unreachable in
  the modelled paths, so no masking is needed except where noted.
* Go `time.Time` values are modelled by `GoTime`: the instant in nanoseconds
  since the Unix epoch together with the location (`none` = `time.UTC`,
  `some off` = `time.FixedZone("", off)`), which is exactly the data the
  code observes (`Sub`, `UTC`, `In`, `IsZero`).
* Stateful readers are modelled denotationally: "drain the reader to EOF"
  becomes a function from the entry, the decoder's production/consumption
  counts, and the remaining source stream to the final result, a direct
  transliteration of the EOF branch of `checksumReader.Read` /
  `rawReader.Read`.
-/

namespace Zipstream

/-- Little-endian 16-bit read: `binary.LittleEndian.Uint16` on the first two
bytes (missing bytes read as 0; all reachable call sites have enough bytes). -/
def le16 (l : List Nat) : Nat := l.getD 0 0 + 256 * l.getD 1 0

/-- Little-endian 32-bit read (`binary.LittleEndian.Uint32`). -/
def le32 (l : List Nat) : Nat :=
  l.getD 0 0 + 256 * l.getD 1 0 + 65536 * l.getD 2 0 + 16777216 * l.getD 3 0

/-- Little-endian 64-bit read (`binary.LittleEndian.Uint64`). -/
def le64 (l : List Nat) : Nat :=
  l.getD 0 0 + 256 * l.getD 1 0 + 65536 * l.getD 2 0 + 16777216 * l.getD 3 0 +
  4294967296 * l.getD 4 0 + 1099511627776 * l.getD 5 0 +
  281474976710656 * l.getD 6 0 + 72057594037927936 * l.getD 7 0

/-- The error values the modelled code distinguishes.  Wrapping with
`fmt.Errorf("...: %w", err)` is modelled by dedicated constructors where the
wrap is observable and dropped where no claim observes it. -/
inductive ZErr where
  /-- `io.EOF` -/
  | eofErr
  /-- `io.ErrUnexpectedEOF` -/
  | unexpectedEOF
  /-- `zip.ErrFormat` -/
  | errFormat
  /-- `zip.ErrChecksum` -/
  | errChecksum
  /-- `zip.ErrAlgorithm` -/
  | errAlgorithm
  /-- "encrypted ZIP entry not supported" -/
  | encrypted
  /-- "only DEFLATED entries can have data descriptor" -/
  | onlyDeflateDD
  /-- "this file has read to end" -/
  | readToEnd
  /-- "repeated Open is not supported" -/
  | repeatedOpen
  /-- "unable to read local file header: %w" -/
  | headerTrunc
  /-- "unable to read entry name and extra area: %w" -/
  | nameExtraTrunc
  /-- "invalid entry compressed size (expected %d but got %d bytes)" -/
  | sizeMismatchC
  /-- "invalid entry size (expected %d but got %d bytes)" -/
  | sizeMismatchU
  deriving Repr, DecidableEq

instance {ε α : Type} [DecidableEq ε] [DecidableEq α] : DecidableEq (Except ε α)
  | .error a, .error b =>
    if h : a = b then .isTrue (by rw [h]) else .isFalse (by simp [h])
  | .error _, .ok _ => .isFalse (by simp)
  | .ok _, .error _ => .isFalse (by simp)
  | .ok a, .ok b =>
    if h : a = b then .isTrue (by rw [h]) else .isFalse (by simp [h])

/-- `io.ReadFull r buf` over a finite stream: reads exactly `n` bytes, or
fails with `io.EOF` when no byte is available (and `n > 0`), or with
`io.ErrUnexpectedEOF` when only part of the request is available. -/
def readFull (s : List Nat) (n : Nat) : Except ZErr (List Nat × List Nat) :=
  if n ≤ s.length then .ok (s.take n, s.drop n)
  else if s.length = 0 then .error .eofErr
  else .error .unexpectedEOF

/-- A Go `time.Time` as observed by this code: instant in nanoseconds since
the Unix epoch, plus the location (`none` = `time.UTC`,
`some off` = `time.FixedZone("", off)` with `off` in seconds). -/
structure GoTime where
  ns  : Int
  loc : Option Int
  deriving Repr, DecidableEq

/-- The instant of the zero `time.Time` (January 1, year 1, 00:00:00 UTC),
in nanoseconds since the Unix epoch; `t.IsZero()` holds exactly when `t`'s
instant equals it with zero nanosecond remainder, i.e. when the total
nanosecond count is this value. -/
def goZeroNs : Int := -62135596800 * 1000000000

/-- The model of `zip.FileHeader` plus the `Entry` fields of the source
(`r`, `rawReader` and `dataReader` carry no data in the model: the stream is
threaded explicitly and `dataReader ≠ nil` becomes `hasDataReader`). -/
structure Entry where
  readerVersion      : Nat := 0
  flags              : Nat := 0
  method             : Nat := 0
  modifiedTime       : Nat := 0
  modifiedDate       : Nat := 0
  crc32              : Nat := 0
  compressedSize     : Nat := 0
  uncompressedSize   : Nat := 0
  compressedSize64   : Nat := 0
  uncompressedSize64 : Nat := 0
  name               : List Nat := []
  extra              : List Nat := []
  nonUTF8            : Bool := false
  modified           : GoTime := ⟨goZeroNs, none⟩
  zip64              : Bool := false
  eof                : Bool := false
  hasDataReader      : Bool := false
  deriving Repr, DecidableEq

/-- `Entry.hasDataDescriptor`: general-purpose flag bit 3. -/
def hasDataDescriptor (e : Entry) : Bool := e.flags &&& 8 ≠ 0

/-- `Entry.IsDir`: the name ends with a forward slash. -/
def isDir (e : Entry) : Bool := e.name ≠ [] ∧ e.name.getLast? = some 47

/-- `readDataDescriptor` (reader.go): sets `entry.zip64` from the argument,
reads 4 bytes; when they are the optional `0x08074b50` signature they are
discarded and the whole 12- (or, for Zip64, 20-)byte descriptor payload
follows; otherwise those 4 bytes are the start of the payload and only the
remainder is read.  The payload is `u32 crc`, then `u32`+`u32`
(or `u64`+`u64`) compressed and uncompressed sizes, which replace the
entry's fields; `entry.eof` is set. -/
def readDataDescriptor (s : List Nat) (e : Entry) (z : Bool) :
    Except ZErr (Entry × List Nat) :=
  let e0 := {e with zip64 := z}
  let ddLen := if z then 24 else 16
  match readFull s 4 with
  | .error er => .error er
  | .ok (first4, s1) =>
    let off := if le32 first4 ≠ 0x08074b50 then 4 else 0
    match readFull s1 (ddLen - 4 - off) with
    | .error er => .error er
    | .ok (more, s2) =>
      let payload := if off = 4 then first4 ++ more else more
      let e1 := {e0 with eof := true}
      let b := payload.drop 4
      if z then
        .ok ({e1 with crc32 := le32 payload,
                      compressedSize64 := le64 b,
                      uncompressedSize64 := le64 (b.drop 8)}, s2)
      else
        .ok ({e1 with crc32 := le32 payload,
                      compressedSize64 := le32 b,
                      uncompressedSize64 := le32 (b.drop 4)}, s2)

/-- Go `isLeap` (time package). -/
def isLeap (y : Int) : Bool := y % 4 = 0 ∧ (y % 100 ≠ 0 ∨ y % 400 = 0)

/-- Cumulative days before each (0-based) month in a non-leap year, the
`daysBefore` table of Go's time package. -/
def daysBefore : Nat → Int
  | 0 => 0 | 1 => 31 | 2 => 59 | 3 => 90 | 4 => 120 | 5 => 151
  | 6 => 181 | 7 => 212 | 8 => 243 | 9 => 273 | 10 => 304 | _ => 334

/-- `time.Date(year, month, day, hour, minute, sec, 0, time.UTC).Unix()`:
Go normalizes the month into the year (other out-of-range fields simply add
into the total, which normalization preserves), counts days since year 1,
and shifts to the Unix epoch.  Exact for every input reachable from the
modelled code (all results well inside `int64`). -/
def goDateUnixSec (year month day hour minute sec : Int) : Int :=
  let m0 := month - 1
  let y := year + Int.ediv m0 12
  let m := (Int.emod m0 12).toNat
  let leapAdj : Int := if isLeap y ∧ 2 ≤ m then 1 else 0
  let days := 365 * (y - 1) + Int.ediv (y - 1) 4 - Int.ediv (y - 1) 100 +
    Int.ediv (y - 1) 400 + daysBefore m + leapAdj + (day - 1)
  days * 86400 + hour * 3600 + minute * 60 + sec - 62135596800

/-- `MSDosTimeToTime` (utils.go): decode the MS-DOS date/time bit fields and
build the instant with `time.Date(..., time.UTC)`. -/
def MSDosTimeToTime (dosDate dosTime : Nat) : GoTime :=
  ⟨goDateUnixSec ((dosDate >>> 9 : Nat) + 1980 : Nat) (((dosDate >>> 5) &&& 0xf : Nat) : Int)
      ((dosDate &&& 0x1f : Nat) : Int) ((dosTime >>> 11 : Nat) : Int)
      (((dosTime >>> 5) &&& 0x3f : Nat) : Int)
      (((dosTime &&& 0x1f) * 2 : Nat) : Int) * 1000000000,
   none⟩

/-- Go `time.Time.Sub` in nanoseconds: exact difference, saturating at
`minDuration`/`maxDuration` on `int64` overflow. -/
def goSub (a b : Int) : Int :=
  let d := a - b
  if d < -9223372036854775808 then -9223372036854775808
  else if 9223372036854775807 < d then 9223372036854775807
  else d

/-- Go `time.Duration.Round` (nanoseconds): round to the nearest multiple of
`m`, ties away from zero, saturating at `minDuration`/`maxDuration` when the
rounded value overflows `int64`. -/
def durRound (d m : Int) : Int :=
  if m ≤ 0 then d
  else
    let r := Int.tmod d m
    if d < 0 then
      if r + r > -m then d - r
      else
        let d1 := d - m - r
        if d1 < -9223372036854775808 then -9223372036854775808 else d1
    else
      if r + r < m then d - r
      else
        let d1 := d + m - r
        if 9223372036854775807 < d1 then 9223372036854775807 else d1

/-- `timeZone` (utils.go): round the offset to 15-minute granularity, reset
non-sensible offsets (outside −12h…+14h) to zero, and return the fixed-zone
offset in seconds (`int(offset / time.Second)`). -/
def timeZone (offsetNs : Int) : Int :=
  let o1 := durRound offsetNs 900000000000
  let o2 := if o1 < -43200000000000 ∨ 50400000000000 < o1 then 0 else o1
  Int.tdiv o2 1000000000

/-- Lines 342–359 of the reader: `entry.Modified` starts as the MS-DOS
baseline; when the extra area supplied an absolute timestamp (`modified`,
here `modNs`, differing from the zero `time.Time`), the final value is that
timestamp — in a fixed zone estimated from the MS-DOS delta when the legacy
fields are set, in UTC when both legacy fields are zero. -/
def reconstructModified (dosDate dosTime : Nat) (modNs : Int) : GoTime :=
  let msdos := MSDosTimeToTime dosDate dosTime
  if modNs ≠ goZeroNs then
    if dosTime ≠ 0 ∨ dosDate ≠ 0 then
      ⟨modNs, some (timeZone (goSub msdos.ns modNs))⟩
    else ⟨modNs, none⟩
  else msdos

/-- Reinterpret a `uint64` value as Go's `int64` (two's complement). -/
def toInt64 (n : Nat) : Int :=
  if n < 9223372036854775808 then (n : Int) else (n : Int) - 18446744073709551616

/-- The mutable locals of the `parseExtras` loop in `readEntry`:
the two promotion obligations, the running 64-bit sizes, the `zip64` flag
and the extras-supplied `modified` timestamp (as total nanoseconds;
`goZeroNs` = the zero `time.Time`, i.e. never assigned). -/
structure ExtrasState where
  needU   : Bool
  needC   : Bool
  usize64 : Nat
  csize64 : Nat
  zip64   : Bool
  modNs   : Int
  deriving Repr, DecidableEq

/-- The inner attribute loop of the NTFS (`0x000a`) extra field: a stream of
`(attrTag: u16, attrSize: u16, payload)` records; only tag 1 with size 24 is
consumed, its first 8 bytes being a Windows-epoch timestamp in 100 ns ticks
(`modified = time.Unix(epoch.Unix()+ts/1e7, 100*(ts%1e7))`); an ill-sized
record abandons the rest of the field. -/
def ntfsGo : Nat → List Nat → Int → Int
  | 0, _, modNs => modNs
  | fuel + 1, buf, modNs =>
    if buf.length < 4 then modNs
    else
      let attrTag := le16 buf
      let attrSize := le16 (buf.drop 2)
      let after := buf.drop 4
      if after.length < attrSize then modNs
      else
        let attrBuf := after.take attrSize
        let rest := after.drop attrSize
        if attrTag = 1 ∧ attrSize = 24 then
          let ts := toInt64 (le64 attrBuf)
          ntfsGo fuel rest
            ((-11644473600 + Int.tdiv ts 10000000) * 1000000000 +
              100 * Int.tmod ts 10000000)
        else ntfsGo fuel rest modNs

/-- The NTFS attribute loop at full fuel.  Each iteration consumes at least
four bytes while spending one unit of fuel, so `buf.length` units can never
run out before the loop's own exit conditions fire. -/
def ntfsAttrs (buf : List Nat) (modNs : Int) : Int := ntfsGo buf.length buf modNs

/-- The `Zip64ExtraID` branch: set `zip64`, then promote — in order — the
uncompressed and the compressed size, each only if its 32-bit slot was maxed
out and only when at least 8 payload bytes remain (else `zip.ErrFormat`). -/
def zip64Promote (fieldBuf : List Nat) (st : ExtrasState) : Except Unit ExtrasState :=
  let st := {st with zip64 := true}
  let step1 : Except Unit (List Nat × ExtrasState) :=
    if st.needU then
      if fieldBuf.length < 8 then .error ()
      else .ok (fieldBuf.drop 8, {st with needU := false, usize64 := le64 fieldBuf})
    else .ok (fieldBuf, st)
  match step1 with
  | .error e => .error e
  | .ok (fb, st) =>
    if st.needC then
      if fb.length < 8 then .error ()
      else .ok {st with needC := false, csize64 := le64 fb}
    else .ok st

/-- The `parseExtras` loop of `readEntry` (lines 270–340): a sequence of
`(tag: u16, size: u16, payload[size])` records; a record whose declared size
exceeds the remaining bytes ends the loop; recognized tags are Zip64
(`0x0001`), NTFS (`0x000a`), Unix (`0x000d`), Info-ZIP Unix (`0x5855`) and
extended timestamp (`0x5455`); all others are skipped. -/
def parseExtrasGo : Nat → List Nat → ExtrasState → Except Unit ExtrasState
  | 0, _, st => .ok st
  | fuel + 1, ler, st =>
    if ler.length < 4 then .ok st
    else
      let fieldTag := le16 ler
      let fieldSize := le16 (ler.drop 2)
      let rest := ler.drop 4
      if rest.length < fieldSize then .ok st
      else
        let fieldBuf := rest.take fieldSize
        let rest' := rest.drop fieldSize
        if fieldTag = 0x0001 then
          match zip64Promote fieldBuf st with
          | .error e => .error e
          | .ok st' => parseExtrasGo fuel rest' st'
        else if fieldTag = 0x000a then
          if fieldBuf.length < 4 then parseExtrasGo fuel rest' st
          else parseExtrasGo fuel rest'
            {st with modNs := ntfsAttrs (fieldBuf.drop 4) st.modNs}
        else if fieldTag = 0x000d ∨ fieldTag = 0x5855 then
          if fieldBuf.length < 8 then parseExtrasGo fuel rest' st
          else parseExtrasGo fuel rest'
            {st with modNs := (le32 (fieldBuf.drop 4) : Int) * 1000000000}
        else if fieldTag = 0x5455 then
          if fieldBuf.length < 5 ∨ fieldBuf.getD 0 0 % 2 = 0 then
            parseExtrasGo fuel rest' st
          else parseExtrasGo fuel rest'
            {st with modNs := (le32 (fieldBuf.drop 1) : Int) * 1000000000}
        else parseExtrasGo fuel rest' st

/-- The extras loop at full fuel.  Each iteration consumes at least four
bytes of `ler` while spending one unit of fuel, so `ler.length` units can
never run out before the loop's own exit conditions fire. -/
def parseExtras (ler : List Nat) (st : ExtrasState) : Except Unit ExtrasState :=
  parseExtrasGo ler.length ler st

/-- The 26 fixed bytes of a local file header (after the signature) plus the
name and extra areas, as `readEntry` reads them. -/
structure LocalHeader where
  rv     : Nat := 0
  flags  : Nat := 0
  method : Nat := 0
  mtime  : Nat := 0
  mdate  : Nat := 0
  crc    : Nat := 0
  csize  : Nat := 0
  usize  : Nat := 0
  name   : List Nat := []
  extra  : List Nat := []
  deriving Repr, DecidableEq

/-- The pure part of `readEntry` after the header bytes are in hand
(lines 230–378 minus the reads): reject encrypted entries and non-deflate
entries with a data descriptor, run the extras loop, reconstruct the
modification time, and fail with `zip.ErrFormat` when the compressed size
was `0xFFFFFFFF` and no Zip64 promotion supplied a value. -/
def buildEntry (h : LocalHeader) : Except ZErr Entry :=
  let base : Entry :=
    { readerVersion := h.rv, flags := h.flags, method := h.method,
      modifiedTime := h.mtime, modifiedDate := h.mdate, crc32 := h.crc,
      compressedSize := h.csize, uncompressedSize := h.usize,
      compressedSize64 := h.csize, uncompressedSize64 := h.usize,
      name := h.name, extra := h.extra, nonUTF8 := h.flags &&& 0x800 = 0 }
  if h.flags % 2 = 1 then .error .encrypted
  else if h.flags &&& 8 = 8 ∧ h.method ≠ 8 then .error .onlyDeflateDD
  else
    match parseExtras h.extra
        ⟨h.usize = 4294967295, h.csize = 4294967295, h.usize, h.csize,
          false, goZeroNs⟩ with
    | .error _ => .error .errFormat
    | .ok st =>
      if st.needC then .error .errFormat
      else
        .ok {base with uncompressedSize64 := st.usize64,
                       compressedSize64 := st.csize64,
                       zip64 := st.zip64,
                       modified := reconstructModified h.mdate h.mtime st.modNs}

/-- The reading part of `readEntry`: 26 header bytes, then
`name_len + extra_len` contiguous bytes (each `io.ReadFull` failure is
wrapped in its own message). -/
def parseHeader (s : List Nat) : Except ZErr (LocalHeader × List Nat) :=
  match readFull s 26 with
  | .error _ => .error .headerTrunc
  | .ok (buf, s1) =>
    let nameLen := le16 (buf.drop 22)
    let extraLen := le16 (buf.drop 24)
    match readFull s1 (nameLen + extraLen) with
    | .error _ => .error .nameExtraTrunc
    | .ok (ne, s2) =>
      .ok ({ rv := le16 buf, flags := le16 (buf.drop 2), method := le16 (buf.drop 4),
             mtime := le16 (buf.drop 6), mdate := le16 (buf.drop 8),
             crc := le32 (buf.drop 10), csize := le32 (buf.drop 14),
             usize := le32 (buf.drop 18),
             name := ne.take nameLen, extra := ne.drop nameLen }, s2)

/-- `Reader.readEntry`: read the header and construct the entry. -/
def readEntry (s : List Nat) : Except ZErr (Entry × List Nat) :=
  match parseHeader s with
  | .error er => .error er
  | .ok (h, rest) =>
    match buildEntry h with
    | .error er => .error er
    | .ok e => .ok (e, rest)

/-- The driver state (`Reader`): the remaining stream, the
"local file section ended" flag and the sticky error.  The model represents
driver states whose current entry, if any, is already drained
(`curEntry == nil || curEntry.eof`), so the skip block of `Next`
(lines 390–396) is a no-op. -/
structure ZReader where
  stream       : List Nat
  localFileEnd : Bool := false
  err          : Option ZErr := none
  deriving Repr, DecidableEq

/-- `Reader.Next` (lines 383–412): sticky error and terminator guards, then
read a 4-byte little-endian signature and classify it. -/
def next (z : ZReader) : Bool × ZReader :=
  if z.err.isSome then (false, z)
  else if z.localFileEnd then (false, z)
  else
    match readFull z.stream 4 with
    | .error er => (false, {z with err := some er})
    | .ok (sig4, s') =>
      let headerSig := le32 sig4
      if headerSig = 0x04034b50 then (true, {z with stream := s'})
      else if headerSig = 0x02014b50 ∨ headerSig = 0x06054b50 then
        (false, {z with stream := s', localFileEnd := true})
      else (false, {z with stream := s', err := some .errFormat})

/-- `Reader.Entry` (lines 418–425): parse an entry at the current position,
with no check of the driver's usage state. -/
def entryCall (z : ZReader) : Except ZErr (Entry × ZReader) :=
  match readEntry z.stream with
  | .error er => .error er
  | .ok (e, rest) => .ok (e, {z with stream := rest})

/-- One bit step of reflected CRC-32 (IEEE polynomial `0xEDB88320`). -/
def crcStep (c : Nat) : Nat := if c % 2 = 1 then (c / 2) ^^^ 0xEDB88320 else c / 2

/-- One byte of reflected CRC-32. -/
def crcByte (c b : Nat) : Nat := crcStep^[8] (c ^^^ b)

/-- CRC-32 (IEEE), the checksum `hash/crc32.NewIEEE()` computes. -/
def crc32 (l : List Nat) : Nat := (l.foldl crcByte 0xFFFFFFFF) ^^^ 0xFFFFFFFF

/-- The decompressor registry: `init` registers `zip.Store` (0, the identity
`io.NopCloser`) and `zip.Deflate` (8); `decompressor` reports whether the
method has a registered factory. -/
def decompressor (method : Nat) : Bool := method = 0 ∨ method = 8

/-- `Entry.Open` state transition: fails after EOF, on a repeated open, and
for methods with no registered decompressor; otherwise installs the data
reader (a `checksumReader` in the source; the model records only that one
exists). -/
def openE (e : Entry) : Except ZErr Entry :=
  if e.eof then .error .readToEnd
  else if e.hasDataReader then .error .repeatedOpen
  else if ¬decompressor e.method then .error .errAlgorithm
  else .ok {e with hasDataReader := true}

/-- `Entry.OpenRaw` state transition: same EOF / repeated-open guards; the
`zip.Store` method short-circuits to `Open`; otherwise installs the raw
reader. -/
def openRawE (e : Entry) : Except ZErr Entry :=
  if e.eof then .error .readToEnd
  else if e.hasDataReader then .error .repeatedOpen
  else if e.method = 0 then openE e
  else .ok {e with hasDataReader := true}

/-- The EOF branch of `checksumReader.Read` (lines 737–770), reached when
the decompressor returns `io.EOF` after producing `u` bytes whose running
CRC-32 is `crcAcc`, with the counting raw reader at `nread` bytes and the
byte source positioned at `s`: verify a non-zero declared uncompressed size,
read the trailing data descriptor in descriptor mode (`io.EOF` there becomes
`io.ErrUnexpectedEOF`) and re-check both counts against it, set `eof`, and
verify a non-zero CRC. -/
def checksumEOF (e : Entry) (u nread crcAcc : Nat) (s : List Nat) :
    Except ZErr (Entry × List Nat) :=
  if e.uncompressedSize64 > 0 ∧ u ≠ e.uncompressedSize64 then
    .error .unexpectedEOF
  else if hasDataDescriptor e then
    match readDataDescriptor s e
        (nread > 4294967295 ∨ u > 4294967295 : Bool) with
    | .error er => .error (if er = .eofErr then .unexpectedEOF else er)
    | .ok (e1, s1) =>
      if nread ≠ e1.compressedSize64 then .error .sizeMismatchC
      else if u ≠ e1.uncompressedSize64 then .error .sizeMismatchU
      else
        let e2 := {e1 with eof := true}
        if e2.crc32 ≠ 0 ∧ crcAcc ≠ e2.crc32 then .error .errChecksum
        else .ok (e2, s1)
  else
    let e2 := {e with eof := true}
    if e2.crc32 ≠ 0 ∧ crcAcc ≠ e2.crc32 then .error .errChecksum
    else .ok (e2, s)

/-- Draining the reader returned by `Open` for a `zip.Store` entry without a
data descriptor: the registered Store decompressor is the identity
(`io.NopCloser`), and the raw reader is a counting limit reader capped at
`compressedSize64` (`readEntry` line 373), so reading to EOF yields the
first `compressedSize64` source bytes (fewer when the source ends first),
after which the EOF branch of `checksumReader.Read` runs.  Returns the bytes
the caller observed, the final entry and the remaining source. -/
def runStoredOpen (e : Entry) (src : List Nat) :
    Except ZErr (List Nat × Entry × List Nat) :=
  let out := src.take e.compressedSize64
  match checksumEOF e out.length out.length (crc32 out) (src.drop out.length) with
  | .error er => .error er
  | .ok (e1, s1) => .ok (out, e1, s1)

/-- Draining the reader returned by `Open` for a deflate entry, with the
decoder abstracted: reading the entry decodes `out` from the source while
consuming `k` raw bytes through the counting reader (in descriptor mode the
source is unbounded, otherwise the counting reader is capped at
`compressedSize64`, so `k ≤ compressedSize64` there), after which the EOF
branch of `checksumReader.Read` runs at source position `src.drop k`. -/
def runOpenDeflate (e : Entry) (src : List Nat) (out : List Nat) (k : Nat) :
    Except ZErr (List Nat × Entry × List Nat) :=
  match checksumEOF e out.length k (crc32 out) (src.drop k) with
  | .error er => .error er
  | .ok (e1, s1) => .ok (out, e1, s1)

/-- Draining the reader returned by `OpenRaw` for a non-descriptor deflate
entry (`rawReader.Read`, lines 678–706, with `newRawReader` passing the
counting limit reader straight through): the caller observes the
`compressedSize64`-byte region; at EOF a non-zero `CompressedSize64`
disagreeing with the count fails with `io.ErrUnexpectedEOF`, else `eof` is
set (CRC verification is skipped on the raw path). -/
def runRawNoDD (e : Entry) (src : List Nat) :
    Except ZErr (List Nat × Entry × List Nat) :=
  let out := src.take e.compressedSize64
  if e.compressedSize64 > 0 ∧ out.length ≠ e.compressedSize64 then
    .error .unexpectedEOF
  else .ok (out, {e with eof := true}, src.drop out.length)

/-- Draining the reader returned by `OpenRaw` for a descriptor-mode deflate
entry: the background decoder consumes `k` source bytes (producing `u`
uncompressed bytes, counted in `rr.uSize`), every consumed byte is mirrored
to the caller through the bridge queue, and at queue close the trailing
descriptor is read from `src.drop k` (Zip64 width exactly when either count
exceeds `0xFFFFFFFF`; `io.EOF` becomes `io.ErrUnexpectedEOF`), then a
non-zero descriptor compressed size disagreeing with the count fails. -/
def runRawDD (e : Entry) (src : List Nat) (k u : Nat) :
    Except ZErr (List Nat × Entry × List Nat) :=
  let out := src.take k
  match readDataDescriptor (src.drop k) e
      (k > 4294967295 ∨ u > 4294967295 : Bool) with
  | .error er => .error (if er = .eofErr then .unexpectedEOF else er)
  | .ok (e1, s1) =>
    if e1.compressedSize64 > 0 ∧ k ≠ e1.compressedSize64 then
      .error .unexpectedEOF
    else .ok (out, {e1 with eof := true}, s1)

/-- Little-endian 16-bit encoding, for building extra areas in statements. -/
def e16 (v : Nat) : List Nat := [v % 256, v / 256 % 256]

/-! ## Claim theorems -/

/-- **C7.** Entry construction after header parse fails with the
"encrypted entries unsupported" error whenever flag bit 0 is set, and —
once past the encryption check — with the "only deflated entries may use a
data descriptor" error whenever flag bit 3 is set and the method is not
deflate; an entry with bit 3 set and a non-deflate method (in particular a
stored entry with the data-descriptor flag) is always rejected at
construction. -/
theorem C7_entry_flag_rejections (h : LocalHeader) :
    (h.flags % 2 = 1 → buildEntry h = .error .encrypted) ∧
    (h.flags % 2 = 0 → h.flags &&& 8 = 8 → h.method ≠ 8 →
      buildEntry h = .error .onlyDeflateDD) ∧
    (h.flags &&& 8 = 8 → h.method ≠ 8 →
      ∃ er, buildEntry h = .error er ∧ (er = .encrypted ∨ er = .onlyDeflateDD)) ∧
    (h.flags &&& 8 = 8 → h.method = 0 → ∃ er, buildEntry h = .error er) := by
  refine ⟨fun h1 => ?_, fun h0 h8 hm => ?_, fun h8 hm => ?_, fun h8 hm => ?_⟩
  · simp [buildEntry, h1]
  · simp [buildEntry, h0, h8, hm]
  · rcases Nat.mod_two_eq_zero_or_one h.flags with h0 | h1
    · exact ⟨.onlyDeflateDD, by simp [buildEntry, h0, h8, hm], Or.inr rfl⟩
    · exact ⟨.encrypted, by simp [buildEntry, h1], Or.inl rfl⟩
  · rcases Nat.mod_two_eq_zero_or_one h.flags with h0 | h1
    · exact ⟨.onlyDeflateDD, by simp [buildEntry, h0, h8]; omega⟩
    · exact ⟨.encrypted, by simp [buildEntry, h1]⟩

/-- Witness for C7 at a concrete header: a stored entry with the
data-descriptor flag set is rejected with the dedicated error. -/
theorem C7_entry_flag_rejections_witness :
    buildEntry {flags := 8, method := 0} = .error .onlyDeflateDD ∧
    buildEntry {flags := 9, method := 8} = .error .encrypted :=
  ⟨(C7_entry_flag_rejections {flags := 8, method := 0}).2.1 (by decide) (by decide)
      (by decide),
   (C7_entry_flag_rejections {flags := 9, method := 8}).1 (by decide)⟩

/-- **C8.** At most one data reader can be created per entry: `Open` and
`OpenRaw` fail when the entry's `eof` flag is set (with the
"read to end" error) or when a data reader already exists (with the
"repeated Open" error) — returning no new state, so the entry is
unchanged — and `Open` fails with `zip.ErrAlgorithm` when the method has no
registered decompressor (the registry holds methods 0 and 8). -/
theorem C8_open_guards (e : Entry) :
    (e.eof = true →
      openE e = .error .readToEnd ∧ openRawE e = .error .readToEnd) ∧
    (e.eof = false → e.hasDataReader = true →
      openE e = .error .repeatedOpen ∧ openRawE e = .error .repeatedOpen) ∧
    (e.eof = false → e.hasDataReader = false → e.method ≠ 0 → e.method ≠ 8 →
      openE e = .error .errAlgorithm) := by
  refine ⟨fun he => ?_, fun he hd => ?_, fun he hd h0 h8 => ?_⟩
  · simp [openE, openRawE, he]
  · simp [openE, openRawE, he, hd]
  · simp [openE, decompressor, he, hd, h0, h8]

/-- Witness for C8 at concrete entries: repeated open, open after EOF, and
an unregistered method (12 = bzip2). -/
theorem C8_open_guards_witness :
    openE {eof := true} = .error .readToEnd ∧
    openE {hasDataReader := true} = .error .repeatedOpen ∧
    openE {method := 12} = .error .errAlgorithm :=
  ⟨((C8_open_guards {eof := true}).1 rfl).1,
   ((C8_open_guards {hasDataReader := true}).2.1 rfl rfl).1,
   (C8_open_guards {method := 12}).2.2 rfl rfl (by decide) (by decide)⟩

/-- Reading four bytes from a stream holding at least four. -/
theorem readFull_cons4 (b0 b1 b2 b3 : Nat) (rest : List Nat) :
    readFull (b0 :: b1 :: b2 :: b3 :: rest) 4 = .ok ([b0, b1, b2, b3], rest) := by
  have h : 4 ≤ (b0 :: b1 :: b2 :: b3 :: rest).length := by simp
  simp [readFull, h]

/-- **C4.** `Next` reads a 4-byte little-endian signature and classifies it:
the local-file-header signature yields `true`; the central-directory or
end-of-archive signature latches the end flag and yields `false` with the
sticky error still `none` (so an archive whose stream begins with the
central directory yields zero entries and no error); any other signature
sets the sticky format error; and a set sticky error or end flag makes
`Next` return `false` with the state unchanged (hence every subsequent
`Next` returns `false` as well). -/
theorem C4_next_classification (z : ZReader) (b0 b1 b2 b3 : Nat)
    (rest : List Nat) :
    (z.err.isSome → next z = (false, z)) ∧
    (z.err = none → z.localFileEnd = true → next z = (false, z)) ∧
    (z.err = none → z.localFileEnd = false →
      z.stream = b0 :: b1 :: b2 :: b3 :: rest →
      (le32 [b0, b1, b2, b3] = 0x04034b50 →
        next z = (true, {z with stream := rest})) ∧
      (le32 [b0, b1, b2, b3] = 0x02014b50 ∨ le32 [b0, b1, b2, b3] = 0x06054b50 →
        next z = (false, {z with stream := rest, localFileEnd := true})) ∧
      (le32 [b0, b1, b2, b3] ≠ 0x04034b50 → le32 [b0, b1, b2, b3] ≠ 0x02014b50 →
        le32 [b0, b1, b2, b3] ≠ 0x06054b50 →
        next z = (false, {z with stream := rest, err := some .errFormat}))) ∧
    (∀ tail : List Nat,
      next ⟨0x50 :: 0x4b :: 0x01 :: 0x02 :: tail, false, none⟩ =
        (false, ⟨tail, true, none⟩)) := by
  refine ⟨fun he => ?_, fun he hl => ?_, fun he hl hs => ⟨fun hsig => ?_, fun hsig => ?_,
    fun h1 h2 h3 => ?_⟩, fun tail => ?_⟩
  · simp [next, he]
  · simp [next, he, hl]
  · have h4 : readFull z.stream 4 = .ok ([b0, b1, b2, b3], rest) := by
      rw [hs]; exact readFull_cons4 b0 b1 b2 b3 rest
    simp [next, he, hl, h4, hsig]
  · have h4 : readFull z.stream 4 = .ok ([b0, b1, b2, b3], rest) := by
      rw [hs]; exact readFull_cons4 b0 b1 b2 b3 rest
    rcases hsig with hsig | hsig <;>
      · have hno : le32 [b0, b1, b2, b3] ≠ 0x04034b50 := by omega
        simp [next, he, hl, h4, hsig, hno]
  · have h4 : readFull z.stream 4 = .ok ([b0, b1, b2, b3], rest) := by
      rw [hs]; exact readFull_cons4 b0 b1 b2 b3 rest
    simp [next, he, hl, h4, h1, h2, h3]
  · have h4 := readFull_cons4 0x50 0x4b 0x01 0x02 tail
    simp [next, h4, le32]

/-- Witness for C4 at concrete driver states: a sticky error stops
iteration, and the central-directory-only archive ends cleanly. -/
theorem C4_next_classification_witness :
    next ⟨[9, 9], false, some .errFormat⟩ = (false, ⟨[9, 9], false, some .errFormat⟩) ∧
    next ⟨[0x50, 0x4b, 0x01, 0x02], false, none⟩ = (false, ⟨[], true, none⟩) :=
  ⟨(C4_next_classification ⟨[9, 9], false, some .errFormat⟩ 0 0 0 0 []).1 rfl,
   (C4_next_classification ⟨[0x50, 0x4b, 0x01, 0x02], false, none⟩ 0 0 0 0 []).2.2.2 []⟩

/-- **C10.** The driver's `Entry` performs no usage-state check: its result
entry (or error) is a function of the stream position alone, independent of
the sticky error, the end flag, or any previous call — it immediately
attempts to parse a 26-byte local file header at the current position, and
a stream shorter than 26 bytes yields only the header-read error, never a
usage error. -/
theorem C10_entry_no_usage_check (s : List Nat) (lfe : Bool) (er : Option ZErr) :
    (entryCall ⟨s, lfe, er⟩ =
      match readEntry s with
      | .error e => .error e
      | .ok (ent, rest) => .ok (ent, ⟨rest, lfe, er⟩)) ∧
    (∀ lfe2 er2, (entryCall ⟨s, lfe, er⟩).map Prod.fst =
      (entryCall ⟨s, lfe2, er2⟩).map Prod.fst) ∧
    (s.length < 26 → entryCall ⟨s, lfe, er⟩ = .error .headerTrunc) := by
  refine ⟨rfl, fun lfe2 er2 => ?_, fun hshort => ?_⟩
  · simp only [entryCall]
    cases readEntry s with
    | error e => rfl
    | ok p => rfl
  · have hph : parseHeader s = .error .headerTrunc := by
      simp only [parseHeader, readFull]
      rw [if_neg (by omega)]
      by_cases h0 : s.length = 0 <;> simp [h0]
    simp [entryCall, readEntry, hph]

/-- Witness for C10: with a sticky error and the end flag both set, `Entry`
still attempts the parse and reports a header-read failure on a short
stream. -/
theorem C10_entry_no_usage_check_witness :
    entryCall ⟨[1, 2, 3], true, some .errFormat⟩ = .error .headerTrunc :=
  (C10_entry_no_usage_check [1, 2, 3] true (some .errFormat)).2.2 (by decide)

/-- A successful `readDataDescriptor` always sets the result entry's
`zip64` field to its `zip64` argument (line 497 assigns it
unconditionally) and sets `eof`. -/
theorem readDataDescriptor_ok_inv (s : List Nat) (e : Entry) (z : Bool)
    (e' : Entry) (s' : List Nat)
    (h : readDataDescriptor s e z = .ok (e', s')) :
    e'.zip64 = z ∧ e'.eof = true := by
  simp only [readDataDescriptor] at h
  split at h
  · cases h
  · split at h
    · cases h
    · split at h <;>
        (simp only [Except.ok.injEq, Prod.mk.injEq] at h
         obtain ⟨h1, h2⟩ := h
         rw [← h1]
         exact ⟨rfl, rfl⟩)

/-- **C9 counterexample.** A descriptor-mode deflate entry whose local
header carries a Zip64 extra record is constructed with `zip64 = true`, but
after its (non-Zip64-width) trailing data descriptor is read at EOF the
flag is `false`: `readDataDescriptor` overwrites it. -/
theorem C9_counterexample :
    (buildEntry {flags := 8, method := 8, extra := [1, 0, 0, 0]}).map
      Entry.zip64 = .ok true ∧
    ((buildEntry {flags := 8, method := 8, extra := [1, 0, 0, 0]}).bind
        (fun e => checksumEOF e 0 0 0
          [0x50, 0x4b, 0x07, 0x08, 0, 0, 0, 0, 0, 0, 0, 0, 0, 0, 0, 0])).map
      (fun p => p.1.zip64) = .ok false := by decide

/-- **C9 (amended).** The `zip64` flag is set at construction when a Zip64
extra record is consumed, but it does not persist: a successful
`readDataDescriptor` overwrites it with its own Zip64-in-effect argument,
which on the checksum path is exactly "a count exceeded `0xFFFFFFFF`" — so
the flag is cleared whenever the descriptor is read with both counts small. -/
theorem C9_zip64_overwritten (e : Entry) (z : Bool) (s s' : List Nat)
    (e' : Entry) :
    (readDataDescriptor s e z = .ok (e', s') → e'.zip64 = z) ∧
    (∀ u n a, hasDataDescriptor e = true →
      checksumEOF e u n a s = .ok (e', s') →
      e'.zip64 = decide (n > 4294967295 ∨ u > 4294967295)) := by
  constructor
  · exact fun h => (readDataDescriptor_ok_inv s e z e' s' h).1
  · intro u n a hdd h
    simp only [checksumEOF, hdd] at h
    split at h
    · cases h
    · simp only [if_true] at h
      split at h
      · cases h
      · rename_i e1 s1 hdesc
        split at h
        · cases h
        · split at h
          · cases h
          · split at h
            · cases h
            · simp only [Except.ok.injEq, Prod.mk.injEq] at h
              obtain ⟨h1, h2⟩ := h
              rw [← h1]
              exact (readDataDescriptor_ok_inv s e _ e1 s1 hdesc).1

/-- Witness for the amended C9: a concrete descriptor read with small
counts yields `zip64 = false`; one with `nread` beyond `0xFFFFFFFF` (via
the checksum path) yields `zip64 = true`. -/
theorem C9_zip64_overwritten_witness :
    Zipstream.readDataDescriptor
        [1, 0, 0, 0, 5, 0, 0, 0, 7, 0, 0, 0] {zip64 := true} false =
      .ok ({crc32 := 1, compressedSize64 := 5, uncompressedSize64 := 7,
            zip64 := false, eof := true}, []) ∧
    ({crc32 := 1, compressedSize64 := 5, uncompressedSize64 := 7,
      zip64 := false, eof := true} : Entry).zip64 = false :=
  have h : Zipstream.readDataDescriptor
      [1, 0, 0, 0, 5, 0, 0, 0, 7, 0, 0, 0] {zip64 := true} false =
      .ok ({crc32 := 1, compressedSize64 := 5, uncompressedSize64 := 7,
            zip64 := false, eof := true}, []) := by decide
  ⟨h, (C9_zip64_overwritten {zip64 := true} false
      [1, 0, 0, 0, 5, 0, 0, 0, 7, 0, 0, 0] []
      {crc32 := 1, compressedSize64 := 5, uncompressedSize64 := 7,
       zip64 := false, eof := true}).1 h⟩

/-- Decoding inverts the 16-bit encoding below `2^16`. -/
theorem le16_e16_append (v : Nat) (r : List Nat) (h : v < 65536) :
    le16 (e16 v ++ r) = v := by
  simp [le16, e16]
  omega

/-- An extra area consisting of exactly one record with tag `t` and a
full-length payload runs the loop body once on that payload.  For the Zip64
tag the body is `zip64Promote`. -/
theorem parseExtras_single_zip64 (st : ExtrasState) (payload : List Nat)
    (h : payload.length < 65536) :
    parseExtras (e16 0x0001 ++ e16 payload.length ++ payload) st =
      match zip64Promote payload st with
      | .error e => .error e
      | .ok st' => .ok st' := by
  have hL : payload.length % 256 + 256 * (payload.length / 256 % 256) =
      payload.length := by omega
  have hlist : e16 0x0001 ++ e16 payload.length ++ payload =
      1 :: 0 :: (payload.length % 256) :: (payload.length / 256 % 256) :: payload := by
    simp [e16]
  have hstep2 : ∀ st' : ExtrasState,
      parseExtrasGo (payload.length + 3) [] st' = .ok st' := by
    intro st'
    rw [show payload.length + 3 = (payload.length + 2) + 1 from rfl, parseExtrasGo]
    simp
  rw [parseExtras, hlist]
  rw [show (1 :: 0 :: (payload.length % 256) :: (payload.length / 256 % 256) ::
      payload).length = (payload.length + 3) + 1 by simp]
  rw [parseExtrasGo]
  simp only [List.length_cons, le16, List.getD_cons_zero, List.getD_cons_succ,
    List.drop_succ_cons, List.drop_zero, hL]
  rw [if_neg (by omega)]
  norm_num
  cases hz : zip64Promote payload st with
  | error e => rfl
  | ok st' => exact hstep2 st'

/-- **C5.** In the Zip64 extra record the 64-bit sizes are promoted only
for fields whose 32-bit slot was `0xFFFFFFFF` (the `needU`/`needC`
obligations set up from the header slots), consulting first the
uncompressed then the compressed size; a promoted field with fewer than 8
remaining payload bytes fails the entry with `zip.ErrFormat`; sizes whose
slot was not maxed out are left untouched; and when the 32-bit compressed
size was `0xFFFFFFFF` but no Zip64 record supplied a value, entry
construction fails with `zip.ErrFormat`. -/
theorem C5_zip64_promotion (payload : List Nat) (usz csz : Nat) (z0 : Bool)
    (m0 : Int) (hdr : LocalHeader) :
    (payload.length < 65536 →
      (parseExtras (e16 0x0001 ++ e16 payload.length ++ payload)
          ⟨false, false, usz, csz, z0, m0⟩ =
        .ok ⟨false, false, usz, csz, true, m0⟩) ∧
      (8 ≤ payload.length →
        parseExtras (e16 0x0001 ++ e16 payload.length ++ payload)
            ⟨true, false, usz, csz, z0, m0⟩ =
          .ok ⟨false, false, le64 payload, csz, true, m0⟩) ∧
      (8 ≤ payload.length →
        parseExtras (e16 0x0001 ++ e16 payload.length ++ payload)
            ⟨false, true, usz, csz, z0, m0⟩ =
          .ok ⟨false, false, usz, le64 payload, true, m0⟩) ∧
      (16 ≤ payload.length →
        parseExtras (e16 0x0001 ++ e16 payload.length ++ payload)
            ⟨true, true, usz, csz, z0, m0⟩ =
          .ok ⟨false, false, le64 payload, le64 (payload.drop 8), true, m0⟩) ∧
      (payload.length < 8 →
        parseExtras (e16 0x0001 ++ e16 payload.length ++ payload)
            ⟨true, false, usz, csz, z0, m0⟩ = .error ()) ∧
      (payload.length < 8 →
        parseExtras (e16 0x0001 ++ e16 payload.length ++ payload)
            ⟨false, true, usz, csz, z0, m0⟩ = .error ()) ∧
      (payload.length < 16 →
        parseExtras (e16 0x0001 ++ e16 payload.length ++ payload)
            ⟨true, true, usz, csz, z0, m0⟩ = .error ())) ∧
    (hdr.flags % 2 = 0 → ¬(hdr.flags &&& 8 = 8 ∧ hdr.method ≠ 8) →
      hdr.csize = 4294967295 → hdr.extra = [] →
      buildEntry hdr = .error .errFormat) := by
  constructor
  · intro hlen
    refine ⟨?_, fun h8 => ?_, fun h8 => ?_, fun h16 => ?_,
      fun h8 => ?_, fun h8 => ?_, fun h16 => ?_⟩ <;>
      rw [parseExtras_single_zip64 _ _ hlen]
    · simp [zip64Promote]
    · have hn8 : ¬payload.length < 8 := by omega
      simp [zip64Promote, hn8]
    · have hn8 : ¬payload.length < 8 := by omega
      simp [zip64Promote, hn8]
    · have hn8 : ¬payload.length < 8 := by omega
      have hn8d : ¬payload.length - 8 < 8 := by omega
      simp [zip64Promote, hn8, hn8d]
    · simp [zip64Promote, h8]
    · simp [zip64Promote, h8]
    · by_cases h8 : payload.length < 8
      · simp [zip64Promote, h8]
      · have h8d : payload.length - 8 < 8 := by omega
        simp [zip64Promote, h8, h8d]
  · intro h0 hnd hc he
    simp [buildEntry, h0, hnd, he, hc, parseExtras, parseExtrasGo]

/-- Witness for C5: promoting both sizes from a 16-byte payload, and the
format error when the compressed slot is maxed out with an empty extra
area. -/
theorem C5_zip64_promotion_witness :
    parseExtras [1, 0, 16, 0, 7, 0, 0, 0, 0, 0, 0, 0, 9, 0, 0, 0, 0, 0, 0, 0]
        ⟨true, true, 4294967295, 4294967295, false, goZeroNs⟩ =
      .ok ⟨false, false, 7, 9, true, goZeroNs⟩ ∧
    buildEntry {csize := 4294967295} = .error .errFormat := by
  have h := C5_zip64_promotion
    [7, 0, 0, 0, 0, 0, 0, 0, 9, 0, 0, 0, 0, 0, 0, 0]
    4294967295 4294967295 false goZeroNs {csize := 4294967295}
  constructor
  · have h1 := ((h.1 (by decide)).2.2.2.1 (by decide))
    simpa [e16, le64] using h1
  · exact h.2 (by decide) (by decide) (by decide) rfl

/-- A fully satisfiable read. -/
theorem readFull_ok (s : List Nat) (n : Nat) (h : n ≤ s.length) :
    readFull s n = .ok (s.take n, s.drop n) := by simp [readFull, h]

/-- A read request exceeding the stream: `io.EOF` on an empty stream,
`io.ErrUnexpectedEOF` on a partial one. -/
theorem readFull_err (s : List Nat) (n : Nat) (h : s.length < n) :
    readFull s n =
      .error (if s.length = 0 then ZErr.eofErr else .unexpectedEOF) := by
  rw [readFull, if_neg (by omega)]
  by_cases hc : s.length = 0 <;> simp [hc]

/-- `getD` below the cut is unchanged by `take`. -/
theorem getD_take_lt (l : List Nat) (n i : Nat) (h : i < n) :
    (l.take n).getD i 0 = l.getD i 0 := by
  simp [List.getD, List.getElem?_take, h]

/-- A 32-bit read only looks at the first four bytes. -/
theorem le32_take_of_le (l : List Nat) (n : Nat) (h : 4 ≤ n) :
    le32 (l.take n) = le32 l := by
  unfold le32
  rw [getD_take_lt l n 0 (by omega), getD_take_lt l n 1 (by omega),
    getD_take_lt l n 2 (by omega), getD_take_lt l n 3 (by omega)]

/-- A 64-bit read only looks at the first eight bytes. -/
theorem le64_take_of_le (l : List Nat) (n : Nat) (h : 8 ≤ n) :
    le64 (l.take n) = le64 l := by
  unfold le64
  rw [getD_take_lt l n 0 (by omega), getD_take_lt l n 1 (by omega),
    getD_take_lt l n 2 (by omega), getD_take_lt l n 3 (by omega),
    getD_take_lt l n 4 (by omega), getD_take_lt l n 5 (by omega),
    getD_take_lt l n 6 (by omega), getD_take_lt l n 7 (by omega)]

/-- **C1.** The data-descriptor protocol.  After decoder EOF in descriptor
mode the reader consumes four bytes; when they equal `0x08074b50` they are
a leading signature and are discarded, exactly 12 further bytes following
when Zip64 is not in effect (u32 CRC, u32 compressed, u32 uncompressed)
and exactly 20 when it is (u32 CRC, u64, u64); without the signature those
four bytes begin the same 12- or 20-byte payload.  The entry's `crc32`,
`compressed_size64` and `uncompressed_size64` are replaced by the
descriptor values.  On the checksum path Zip64 is in effect exactly when
the counting raw reader consumed more than `0xFFFFFFFF` bytes or the
decoder produced more than `0xFFFFFFFF` bytes, and a source EOF while
reading the descriptor is surfaced as `io.ErrUnexpectedEOF`. -/
theorem C1_data_descriptor (e : Entry) (z : Bool) (sig4 rest s : List Nat)
    (u n a : Nat) :
    (sig4.length = 4 → le32 sig4 = 0x08074b50 →
      (12 ≤ rest.length → readDataDescriptor (sig4 ++ rest) e false =
        .ok ({e with
               zip64 := false, eof := true, crc32 := le32 rest,
               compressedSize64 := le32 (rest.drop 4),
               uncompressedSize64 := le32 (rest.drop 8)}, rest.drop 12)) ∧
      (20 ≤ rest.length → readDataDescriptor (sig4 ++ rest) e true =
        .ok ({e with
               zip64 := true, eof := true, crc32 := le32 rest,
               compressedSize64 := le64 (rest.drop 4),
               uncompressedSize64 := le64 (rest.drop 12)}, rest.drop 20))) ∧
    (le32 (s.take 4) ≠ 0x08074b50 →
      (12 ≤ s.length → readDataDescriptor s e false =
        .ok ({e with
               zip64 := false, eof := true, crc32 := le32 s,
               compressedSize64 := le32 (s.drop 4),
               uncompressedSize64 := le32 (s.drop 8)}, s.drop 12)) ∧
      (20 ≤ s.length → readDataDescriptor s e true =
        .ok ({e with
               zip64 := true, eof := true, crc32 := le32 s,
               compressedSize64 := le64 (s.drop 4),
               uncompressedSize64 := le64 (s.drop 12)}, s.drop 20))) ∧
    (s.length < 4 ∨
        (le32 (s.take 4) = 0x08074b50 ∧ s.length < 4 + (if z then 20 else 12)) ∨
        (le32 (s.take 4) ≠ 0x08074b50 ∧ s.length < (if z then 20 else 12)) →
      ∃ er, readDataDescriptor s e z = .error er ∧
        (er = .eofErr ∨ er = .unexpectedEOF)) ∧
    (hasDataDescriptor e = true →
      (e.uncompressedSize64 = 0 ∨ u = e.uncompressedSize64) →
      (∀ er, readDataDescriptor s e
            (decide (n > 4294967295 ∨ u > 4294967295)) = .error er →
          er = .eofErr ∨ er = .unexpectedEOF →
          checksumEOF e u n a s = .error .unexpectedEOF) ∧
      (∀ e1 s1, readDataDescriptor s e
            (decide (n > 4294967295 ∨ u > 4294967295)) = .ok (e1, s1) →
          n = e1.compressedSize64 → u = e1.uncompressedSize64 →
          (e1.crc32 = 0 ∨ a = e1.crc32) →
          checksumEOF e u n a s = .ok ({e1 with eof := true}, s1))) := by
  refine ⟨fun hs4 hsig => ⟨fun h12 => ?_, fun h20 => ?_⟩,
    fun hnsig => ⟨fun h12 => ?_, fun h20 => ?_⟩, fun hins => ?_,
    fun hdd hpre => ?_⟩
  · -- signature, narrow descriptor
    have hrf1 : readFull (sig4 ++ rest) 4 = .ok (sig4, rest) := by
      rw [readFull_ok _ _ (by simp [hs4])]
      rw [show (4 : Nat) = sig4.length from hs4.symm, List.take_left,
        List.drop_left]
    simp [readDataDescriptor, hrf1, hsig, readFull_ok rest 12 h12,
      List.drop_take, List.drop_drop, le32_take_of_le]
  · -- signature, Zip64 descriptor
    have hrf1 : readFull (sig4 ++ rest) 4 = .ok (sig4, rest) := by
      rw [readFull_ok _ _ (by simp [hs4])]
      rw [show (4 : Nat) = sig4.length from hs4.symm, List.take_left,
        List.drop_left]
    simp [readDataDescriptor, hrf1, hsig, readFull_ok rest 20 h20,
      List.drop_take, List.drop_drop, le32_take_of_le, le64_take_of_le]
  · -- no signature, narrow descriptor
    have hrf1 := readFull_ok s 4 (by omega)
    have hrf2 := readFull_ok (s.drop 4) 8 (by simp; omega)
    have hp : s.take 4 ++ (s.drop 4).take 8 = s.take 12 :=
      (List.take_add s 4 8).symm
    have hns : ¬(le32 s = 0x08074b50) := by
      rw [← le32_take_of_le s 4 (by omega)]; exact hnsig
    simp [readDataDescriptor, hrf1, hns, hrf2, hp,
      List.drop_take, List.drop_drop, le32_take_of_le]
  · -- no signature, Zip64 descriptor
    have hrf1 := readFull_ok s 4 (by omega)
    have hrf2 := readFull_ok (s.drop 4) 16 (by simp; omega)
    have hp : s.take 4 ++ (s.drop 4).take 16 = s.take 20 :=
      (List.take_add s 4 16).symm
    have hns : ¬(le32 s = 0x08074b50) := by
      rw [← le32_take_of_le s 4 (by omega)]; exact hnsig
    simp [readDataDescriptor, hrf1, hns, hrf2, hp,
      List.drop_take, List.drop_drop, le32_take_of_le, le64_take_of_le]
  · -- truncation
    by_cases h4 : s.length < 4
    · refine ⟨if s.length = 0 then ZErr.eofErr else .unexpectedEOF, ?_, ?_⟩
      · simp [readDataDescriptor, readFull_err s 4 h4]
      · by_cases h0 : s.length = 0 <;> simp [h0]
    · have hge : 4 ≤ s.length := by omega
      have hrf1 := readFull_ok s 4 hge
      have hrem : (s.drop 4).length = s.length - 4 := by simp
      rcases hins with h | ⟨hsg, hlen⟩ | ⟨hsg, hlen⟩
      · omega
      · cases z
        · have h2 := readFull_err (s.drop 4) 12 (by simp at hlen ⊢; omega)
          refine ⟨if s.length - 4 = 0 then ZErr.eofErr else .unexpectedEOF,
            by simp [readDataDescriptor, hrf1, hsg, h2, hrem], ?_⟩
          by_cases h0 : s.length - 4 = 0 <;> simp [h0]
        · have h2 := readFull_err (s.drop 4) 20 (by simp at hlen ⊢; omega)
          refine ⟨if s.length - 4 = 0 then ZErr.eofErr else .unexpectedEOF,
            by simp [readDataDescriptor, hrf1, hsg, h2, hrem], ?_⟩
          by_cases h0 : s.length - 4 = 0 <;> simp [h0]
      · cases z
        · have h2 := readFull_err (s.drop 4) 8 (by simp at hlen ⊢; omega)
          refine ⟨if s.length - 4 = 0 then ZErr.eofErr else .unexpectedEOF,
            by simp [readDataDescriptor, hrf1, hsg, h2, hrem], ?_⟩
          by_cases h0 : s.length - 4 = 0 <;> simp [h0]
        · have h2 := readFull_err (s.drop 4) 16 (by simp at hlen ⊢; omega)
          refine ⟨if s.length - 4 = 0 then ZErr.eofErr else .unexpectedEOF,
            by simp [readDataDescriptor, hrf1, hsg, h2, hrem], ?_⟩
          by_cases h0 : s.length - 4 = 0 <;> simp [h0]
  · -- the checksum path around the descriptor
    have hnp : ¬(e.uncompressedSize64 > 0 ∧ u ≠ e.uncompressedSize64) := by
      rcases hpre with h | h <;> simp [h]
    refine ⟨fun er hrd her => ?_, fun e1 s1 hrd hn hu hcrc => ?_⟩
    · simp only [checksumEOF, hdd, if_true, if_neg hnp]
      rw [hrd]
      rcases her with h | h <;> simp [h]
    · simp only [checksumEOF, hdd, if_true, if_neg hnp]
      rw [hrd]
      have hcrc2 : ¬({e1 with eof := true} : Entry).crc32 ≠ 0 ∨
          ¬(a ≠ ({e1 with eof := true} : Entry).crc32) := by
        rcases hcrc with h | h <;> simp [h]
      simp [← hn, ← hu]
      rcases hcrc with h | h <;> simp [h]

/-- Witness for C1: a concrete 16-byte descriptor with leading signature
(crc 1, compressed 5, uncompressed 7), read with Zip64 not in effect. -/
theorem C1_data_descriptor_witness :
    readDataDescriptor
        [0x50, 0x4b, 0x07, 0x08, 1, 0, 0, 0, 5, 0, 0, 0, 7, 0, 0, 0]
        {} false =
      .ok ({crc32 := 1, compressedSize64 := 5, uncompressedSize64 := 7,
            zip64 := false, eof := true}, []) := by
  have h := ((C1_data_descriptor {} false [0x50, 0x4b, 0x07, 0x08]
      [1, 0, 0, 0, 5, 0, 0, 0, 7, 0, 0, 0] [] 0 0 0).1
      (by decide) (by decide)).1 (by decide)
  simpa [le32] using h

/-- **C2 counterexample.** A stored entry declaring `compressed_size64 = 5`,
`uncompressed_size64 = 0` and CRC 0 over a source that ends after 3 bytes:
the checksum-path read to EOF succeeds (the zero declared size and zero CRC
disable both checks), yet the counting reader observed 3 ≠ 5 bytes and the
decoder produced 3 ≠ 0 bytes. -/
theorem C2_counterexample :
    runStoredOpen {compressedSize64 := 5} [1, 2, 3] =
      .ok ([1, 2, 3], {compressedSize64 := 5, eof := true}, []) ∧
    ([1, 2, 3] : List Nat).length ≠
      ({compressedSize64 := 5} : Entry).compressedSize64 ∧
    ([1, 2, 3] : List Nat).length ≠
      ({compressedSize64 := 5} : Entry).uncompressedSize64 := by decide

/-- **C2 (amended).** For an entry read to EOF through the checksum path
without error: in descriptor mode both counts equal the descriptor-supplied
sizes; outside it a non-zero declared uncompressed size that disagrees with
the produced count fails with `io.ErrUnexpectedEOF` (so equality holds
whenever the declared size is non-zero), while the compressed count is not
checked at all; if the effective CRC is non-zero it equals the running
CRC-32, a mismatch failing with `zip.ErrChecksum`, and a declared CRC of 0
triggers no verification. -/
theorem C2_checksum_path (e : Entry) (u n a : Nat) (s : List Nat) :
    (∀ e' s', checksumEOF e u n a s = .ok (e', s') →
      (hasDataDescriptor e = true →
        n = e'.compressedSize64 ∧ u = e'.uncompressedSize64) ∧
      (hasDataDescriptor e = false → 0 < e.uncompressedSize64 →
        u = e.uncompressedSize64 ∧ e'.uncompressedSize64 = e.uncompressedSize64) ∧
      (e'.crc32 ≠ 0 → a = e'.crc32)) ∧
    (0 < e.uncompressedSize64 → u ≠ e.uncompressedSize64 →
      checksumEOF e u n a s = .error .unexpectedEOF) ∧
    (hasDataDescriptor e = false →
      (e.uncompressedSize64 = 0 ∨ u = e.uncompressedSize64) →
      e.crc32 ≠ 0 → a ≠ e.crc32 →
      checksumEOF e u n a s = .error .errChecksum) ∧
    (hasDataDescriptor e = false →
      (e.uncompressedSize64 = 0 ∨ u = e.uncompressedSize64) → e.crc32 = 0 →
      checksumEOF e u n a s = .ok ({e with eof := true}, s)) := by
  have hpre : ∀ hp : e.uncompressedSize64 = 0 ∨ u = e.uncompressedSize64,
      ¬(e.uncompressedSize64 > 0 ∧ u ≠ e.uncompressedSize64) := by
    rintro (h | h) <;> simp [h]
  refine ⟨fun e' s' hok => ?_, fun h1 h2 => ?_, fun hdd hp hc hm => ?_,
    fun hdd hp hc => ?_⟩
  · refine ⟨fun hdd => ?_, fun hdd h0 => ?_, fun hc => ?_⟩
    · simp only [checksumEOF, hdd, if_true] at hok
      split at hok
      · cases hok
      · split at hok
        · cases hok
        · split at hok
          · cases hok
          · split at hok
            · cases hok
            · split at hok
              · cases hok
              · rename_i e1 s1 hdesc hn hu hcrc
                simp only [Except.ok.injEq, Prod.mk.injEq] at hok
                obtain ⟨h1, h2⟩ := hok
                rw [← h1]
                simp only [not_not] at hn hu
                exact ⟨hn, hu⟩
    · simp only [checksumEOF, hdd] at hok
      split at hok
      · cases hok
      · rename_i hno
        simp only [Bool.false_eq_true, if_false] at hok
        split at hok
        · cases hok
        · simp only [Except.ok.injEq, Prod.mk.injEq] at hok
          obtain ⟨h1, h2⟩ := hok
          rw [← h1]
          refine ⟨?_, rfl⟩
          by_contra hne
          exact hno ⟨h0, hne⟩
    · simp only [checksumEOF] at hok
      split at hok
      · cases hok
      · split at hok
        · split at hok
          · cases hok
          · split at hok
            · cases hok
            · split at hok
              · cases hok
              · split at hok
                · cases hok
                · rename_i hcrc
                  simp only [Except.ok.injEq, Prod.mk.injEq] at hok
                  obtain ⟨h1, h2⟩ := hok
                  rw [← h1] at hc ⊢
                  simp only [not_and, not_not] at hcrc
                  exact hcrc (by simpa using hc)
        · split at hok
          · cases hok
          · rename_i hcrc
            simp only [Except.ok.injEq, Prod.mk.injEq] at hok
            obtain ⟨h1, h2⟩ := hok
            rw [← h1] at hc ⊢
            simp only [not_and, not_not] at hcrc
            exact hcrc (by simpa using hc)
  · simp [checksumEOF, h1, h2]
  · have := hpre hp
    simp [checksumEOF, hdd, this, hc, hm]
  · have := hpre hp
    simp [checksumEOF, hdd, this, hc]

/-- Witness for the amended C2: a non-descriptor entry with zero declared
CRC reaches EOF successfully whatever the accumulated checksum is. -/
theorem C2_checksum_path_witness :
    checksumEOF {compressedSize64 := 5} 3 3 0 [] =
      .ok ({compressedSize64 := 5, eof := true}, []) :=
  (C2_checksum_path {compressedSize64 := 5} 3 3 0 []).2.2.2
    (by decide) (Or.inl (by decide)) (by decide)

/-- Inversion of a successful checksum-path EOF step: the descriptor-mode
counts match the (descriptor-updated) sizes; outside descriptor mode the
entry is unchanged except for `eof`, the stream is untouched and a non-zero
declared uncompressed size equals the produced count. -/
theorem checksumEOF_ok_inv (e : Entry) (u n a : Nat) (s : List Nat)
    (e' : Entry) (s' : List Nat)
    (hok : checksumEOF e u n a s = .ok (e', s')) :
    (hasDataDescriptor e = true →
      n = e'.compressedSize64 ∧ u = e'.uncompressedSize64) ∧
    (hasDataDescriptor e = false → e' = {e with eof := true} ∧ s' = s ∧
      (0 < e.uncompressedSize64 → u = e.uncompressedSize64)) := by
  simp only [checksumEOF] at hok
  split at hok
  · cases hok
  · rename_i hpre
    split at hok
    · rename_i hdd
      split at hok
      · cases hok
      · rename_i e1 s1 hdesc
        split at hok
        · cases hok
        · rename_i hn
          split at hok
          · cases hok
          · rename_i hu
            split at hok
            · cases hok
            · simp only [Except.ok.injEq, Prod.mk.injEq] at hok
              obtain ⟨h1, h2⟩ := hok
              simp only [not_not] at hn hu
              refine ⟨fun _ => ?_, fun hf => ?_⟩
              · rw [← h1]; exact ⟨hn, hu⟩
              · exact absurd hdd (by simp [hf])
    · rename_i hdd
      split at hok
      · cases hok
      · simp only [Except.ok.injEq, Prod.mk.injEq] at hok
        obtain ⟨h1, h2⟩ := hok
        refine ⟨fun ht => ?_, fun _ => ⟨h1.symm, h2.symm, fun h0 => ?_⟩⟩
        · exact absurd ht hdd
        · by_contra hne
          exact hpre ⟨h0, hne⟩

/-- **C3 counterexample.** A fully read stored entry with declared
`uncompressed_size64 = 0`, `compressed_size64 = 5`, CRC 0 over a 5-byte
source: `OpenRaw` short-circuits to `Open`, the read to EOF succeeds, and
the caller observes 5 bytes, not `uncompressed_size64 = 0`. -/
theorem C3_counterexample :
    openRawE {method := 0, compressedSize64 := 5} =
      openE {method := 0, compressedSize64 := 5} ∧
    runStoredOpen {compressedSize64 := 5} [1, 2, 3, 4, 5] =
      .ok ([1, 2, 3, 4, 5], {compressedSize64 := 5, eof := true}, []) ∧
    ([1, 2, 3, 4, 5] : List Nat).length ≠
      ({compressedSize64 := 5} : Entry).uncompressedSize64 := by decide

/-- **C3 (amended).** For every fully read entry: through `open_raw` a
deflate entry yields exactly `compressed_size64` bytes (unconditionally in
non-descriptor mode; in descriptor mode whenever the descriptor-supplied
compressed size is non-zero); through `open` the caller observes exactly
`uncompressed_size64` bytes whenever the entry is in descriptor mode or
declared a non-zero uncompressed size; for stored entries `open_raw`
short-circuits to `open`, so the two byte sequences coincide; and for
deflate entries, inflating the `open_raw` sequence yields the `open`
sequence. -/
theorem C3_open_vs_raw (e : Entry) (src out rawOut openOut : List Nat)
    (k u : Nat) (e1 e2 : Entry) (s1 s2 : List Nat) :
    (e.method = 0 → openRawE e = openE e) ∧
    (∀ out' e' s', runRawNoDD e src = .ok (out', e', s') →
      out' = src.take e.compressedSize64 ∧
      out'.length = e.compressedSize64) ∧
    (k ≤ src.length → ∀ out' e' s', runRawDD e src k u = .ok (out', e', s') →
      out' = src.take k ∧ (0 < e'.compressedSize64 →
        out'.length = e'.compressedSize64 ∧ k = e'.compressedSize64)) ∧
    (∀ out' e' s', runOpenDeflate e src out k = .ok (out', e', s') →
      out' = out ∧
      (hasDataDescriptor e = true → out.length = e'.uncompressedSize64) ∧
      (hasDataDescriptor e = false → 0 < e.uncompressedSize64 →
        out.length = e.uncompressedSize64)) ∧
    (∀ inflate : List Nat → List Nat × Nat,
      (inflate (src.take e.compressedSize64) = (out, k) →
        runRawNoDD e src = .ok (rawOut, e1, s1) →
        runOpenDeflate e src out k = .ok (openOut, e2, s2) →
        (inflate rawOut).1 = openOut) ∧
      (inflate (src.take k) = (out, k) →
        runRawDD e src k u = .ok (rawOut, e1, s1) →
        runOpenDeflate e src out k = .ok (openOut, e2, s2) →
        (inflate rawOut).1 = openOut)) := by
  have hraw : ∀ out' e' s', runRawNoDD e src = .ok (out', e', s') →
      out' = src.take e.compressedSize64 ∧
      out'.length = e.compressedSize64 := by
    intro out' e' s' h
    simp only [runRawNoDD] at h
    split at h
    · cases h
    · rename_i hcond
      simp only [Except.ok.injEq, Prod.mk.injEq] at h
      obtain ⟨h1, -, -⟩ := h
      refine ⟨h1.symm, ?_⟩
      rw [← h1]
      by_cases h0 : 0 < e.compressedSize64
      · by_contra hne
        exact hcond ⟨h0, hne⟩
      · simp [List.length_take]
        omega
  have hopen : ∀ out' e' s', runOpenDeflate e src out k = .ok (out', e', s') →
      out' = out ∧
      (hasDataDescriptor e = true → out.length = e'.uncompressedSize64) ∧
      (hasDataDescriptor e = false → 0 < e.uncompressedSize64 →
        out.length = e.uncompressedSize64) := by
    intro out' e' s' h
    simp only [runOpenDeflate] at h
    split at h
    · cases h
    · rename_i pe ps hck
      simp only [Except.ok.injEq, Prod.mk.injEq] at h
      obtain ⟨h1, h2, h3⟩ := h
      have hinv := checksumEOF_ok_inv e out.length k (crc32 out) (src.drop k)
        pe ps hck
      refine ⟨h1.symm, fun hdd => ?_, fun hdd h0 => ?_⟩
      · rw [← h2]; exact (hinv.1 hdd).2
      · exact (hinv.2 hdd).2.2 h0
  refine ⟨fun hm => ?_, hraw, fun hk out' e' s' h => ?_, hopen, fun inflate => ⟨?_, ?_⟩⟩
  · by_cases he : e.eof <;> by_cases hd : e.hasDataReader <;>
      simp [openRawE, openE, he, hd, hm]
  · simp only [runRawDD] at h
    split at h
    · cases h
    · rename_i pe ps hdesc
      split at h
      · cases h
      · rename_i hcond
        simp only [Except.ok.injEq, Prod.mk.injEq] at h
        obtain ⟨h1, h2, h3⟩ := h
        refine ⟨h1.symm, fun h0 => ?_⟩
        have hc64 : e'.compressedSize64 = pe.compressedSize64 := by
          rw [← h2]
        have hkc : k = e'.compressedSize64 := by
          by_contra hne
          exact hcond ⟨by omega, by rw [hc64] at hne; exact hne⟩
        refine ⟨?_, hkc⟩
        rw [← h1]
        simp [List.length_take]
        omega
  · intro hinf hr ho
    obtain ⟨hr1, hr2⟩ := hraw rawOut e1 s1 hr
    obtain ⟨ho1, -, -⟩ := hopen openOut e2 s2 ho
    rw [hr1, hinf, ho1]
  · intro hinf hr ho
    obtain ⟨ho1, -, -⟩ := hopen openOut e2 s2 ho
    simp only [runRawDD] at hr
    split at hr
    · cases hr
    · split at hr
      · cases hr
      · simp only [Except.ok.injEq, Prod.mk.injEq] at hr
        obtain ⟨hr1, -, -⟩ := hr
        rw [hr1.symm, hinf, ho1]

/-- Witness for the amended C3: a concrete deflate entry with matching
declared sizes, a 2-byte "compressed" region and the identity codec. -/
theorem C3_open_vs_raw_witness :
    runRawNoDD {method := 8, compressedSize64 := 2, uncompressedSize64 := 2}
        [7, 9] =
      .ok ([7, 9],
        {method := 8, compressedSize64 := 2, uncompressedSize64 := 2,
         eof := true},
        []) ∧
    ([7, 9] : List Nat).length =
      ({method := 8, compressedSize64 := 2} : Entry).compressedSize64 := by
  constructor
  · decide
  · have h := (C3_open_vs_raw
      {method := 8, compressedSize64 := 2, uncompressedSize64 := 2}
      [7, 9] [] [] [] 0 0 {} {} [] []).2.1
      [7, 9]
      {method := 8, compressedSize64 := 2, uncompressedSize64 := 2, eof := true}
      [] (by decide)
    exact h.2

/-- `Duration.Round` by 15 minutes yields a multiple of 15 minutes unless it
saturates at `minDuration`/`maxDuration`. -/
theorem durRound_mem (d : Int) :
    (900000000000 : Int) ∣ durRound d 900000000000 ∨
    durRound d 900000000000 = -9223372036854775808 ∨
    durRound d 900000000000 = 9223372036854775807 := by
  obtain ⟨q, hq⟩ : (900000000000 : Int) ∣ d - Int.tmod d 900000000000 := by
    refine ⟨d.tdiv 900000000000, ?_⟩
    have h := Int.tdiv_add_tmod d 900000000000
    omega
  simp only [durRound]
  rw [if_neg (by norm_num)]
  split_ifs with h1 h2 h3 h4 h5 <;>
    first
      | exact Or.inr (Or.inl rfl)
      | exact Or.inr (Or.inr rfl)
      | exact Or.inl ⟨q, by omega⟩
      | exact Or.inl ⟨q - 1, by omega⟩
      | exact Or.inl ⟨q + 1, by omega⟩

/-- A rounded offset outside −12h…+14h is reset to zero. -/
theorem timeZone_reset (o : Int)
    (h : durRound o 900000000000 < -43200000000000 ∨
      50400000000000 < durRound o 900000000000) : timeZone o = 0 := by
  simp [timeZone, h]

/-- The fixed-zone offset is always a whole multiple of 15 minutes inside
−12h…+14h. -/
theorem timeZone_range (o : Int) :
    timeZone o % 900 = 0 ∧ -43200 ≤ timeZone o ∧ timeZone o ≤ 50400 := by
  by_cases hcl : durRound o 900000000000 < -43200000000000 ∨
      50400000000000 < durRound o 900000000000
  · rw [timeZone_reset o hcl]
    norm_num
  · have hmem := durRound_mem o
    push_neg at hcl
    obtain ⟨hlo, hhi⟩ := hcl
    simp only [timeZone]
    rw [if_neg (by omega)]
    rcases hmem with ⟨j, hj⟩ | h | h
    · rw [hj] at hlo hhi ⊢
      have hdiv : Int.tdiv (900000000000 * j) 1000000000 = 900 * j := by
        rw [show (900000000000 : Int) * j = 1000000000 * (900 * j) by ring]
        exact Int.mul_tdiv_cancel_left _ (by norm_num)
      rw [hdiv]
      refine ⟨Int.mul_emod_right 900 j, by omega, by omega⟩
    · omega
    · omega

/-- **C6.** Time reconstruction.  The baseline modification time is built
from the MS-DOS fields in UTC with `year = (date>>9)+1980`,
`month = (date>>5)&0xF`, `day = date&0x1F`, `hour = time>>11`,
`minute = (time>>5)&0x3F`, `second = (time&0x1F)*2`.  When an extra record
supplied an absolute timestamp `ext`, the final modified time is `ext` in a
fixed zone whose offset is the MS-DOS baseline minus `ext` rounded to 15
minutes (always a multiple of 15 minutes within −12h…+14h, offsets rounding
outside that range being reset to zero); and when the MS-DOS date and time
fields are both zero, `ext` is kept in UTC unchanged. -/
theorem C6_time_reconstruction (d t : Nat) (ext : Int) :
    (reconstructModified d t goZeroNs = MSDosTimeToTime d t ∧
      MSDosTimeToTime d t =
        ⟨goDateUnixSec ((d >>> 9 : Nat) + 1980) (((d >>> 5) &&& 15 : Nat) : Int)
            ((d &&& 31 : Nat) : Int) ((t >>> 11 : Nat) : Int)
            (((t >>> 5) &&& 63 : Nat) : Int) (((t &&& 31) * 2 : Nat) : Int) *
          1000000000, none⟩) ∧
    (ext ≠ goZeroNs → (t ≠ 0 ∨ d ≠ 0) →
      reconstructModified d t ext =
        ⟨ext, some (timeZone (goSub (MSDosTimeToTime d t).ns ext))⟩ ∧
      timeZone (goSub (MSDosTimeToTime d t).ns ext) % 900 = 0 ∧
      -43200 ≤ timeZone (goSub (MSDosTimeToTime d t).ns ext) ∧
      timeZone (goSub (MSDosTimeToTime d t).ns ext) ≤ 50400) ∧
    (ext ≠ goZeroNs → reconstructModified 0 0 ext = ⟨ext, none⟩) ∧
    (∀ o : Int, durRound o 900000000000 < -43200000000000 ∨
      50400000000000 < durRound o 900000000000 → timeZone o = 0) := by
  refine ⟨⟨by simp [reconstructModified], ?_⟩, fun hext hnz => ?_,
    fun hext => ?_, fun o ho => timeZone_reset o ho⟩
  · simp only [MSDosTimeToTime, GoTime.mk.injEq, and_true]
    congr 2
  · refine ⟨by simp [reconstructModified, hext, hnz], ?_⟩
    exact timeZone_range (goSub (MSDosTimeToTime d t).ns ext)
  · simp [reconstructModified, hext]

/-- Witness for C6 at a concrete input: MS-DOS baseline 1980-01-01 00:00 UTC
(date 33, time 0), extended timestamp one hour earlier: the result is the
extended instant in a fixed zone at +3600 seconds. -/
theorem C6_time_reconstruction_witness :
    reconstructModified 33 0 315529200000000000 =
      ⟨315529200000000000, some 3600⟩ :=
  have h := ((C6_time_reconstruction 33 0 315529200000000000).2.1
    (by decide) (by decide)).1
  h.trans (by decide)

end Zipstream

/-! ## Concrete evaluations validating the embedding -/
example :
    Zipstream.readDataDescriptor
      [0x50, 0x4b, 0x07, 0x08, 1, 0, 0, 0, 5, 0, 0, 0, 7, 0, 0, 0, 99]
      {} false =
    .ok ({crc32 := 1, compressedSize64 := 5, uncompressedSize64 := 7,
          eof := true, zip64 := false}, [99]) := by decide

example :
    Zipstream.readDataDescriptor
      [1, 0, 0, 0, 5, 0, 0, 0, 7, 0, 0, 0, 99]
      {} false =
    .ok ({crc32 := 1, compressedSize64 := 5, uncompressedSize64 := 7,
          eof := true, zip64 := false}, [99]) := by decide

example : Zipstream.readDataDescriptor [] {} false = .error .eofErr := by decide
example : Zipstream.readDataDescriptor [1, 2] {} false = .error .unexpectedEOF := by decide
example : Zipstream.readDataDescriptor [1, 2, 3, 4, 5] {} false = .error .unexpectedEOF := by decide

-- 1980-01-01 00:00:00 UTC
example : Zipstream.goDateUnixSec 1980 1 1 0 0 0 = 315532800 := by decide
-- month 0 normalizes to December of the previous year
example : Zipstream.goDateUnixSec 1980 0 1 0 0 0 = 312854400 := by decide
-- day 0 is the day before the first of the month
example : Zipstream.goDateUnixSec 1980 1 0 0 0 0 = 315446400 := by decide
-- 2000-03-01 (leap-year February)
example : Zipstream.goDateUnixSec 2000 3 1 0 0 0 = 951868800 := by decide
-- 2021-11-17 17:32:08
example : Zipstream.goDateUnixSec 2021 11 17 17 32 8 = 1637170328 := by decide
example : Zipstream.MSDosTimeToTime 33 0 = ⟨315532800 * 1000000000, none⟩ := by decide
example : Zipstream.timeZone 3600000000000 = 3600 := by decide
example : Zipstream.timeZone 1000000000000 = 900 := by decide
example : Zipstream.timeZone 450000000000 = 900 := by decide
example : Zipstream.timeZone (-450000000000) = -900 := by decide
example : Zipstream.timeZone 54000000000000 = 0 := by decide
example : Zipstream.timeZone (-43200000000000) = -43200 := by decide

example : Zipstream.crc32 [] = 0 := by decide
-- crc32("123456789") = 0xCBF43926
example : Zipstream.crc32 [49, 50, 51, 52, 53, 54, 55, 56, 57] = 0xCBF43926 := by decide
-- crc32("hello\n") = 0x363A3020 (spec end-to-end scenario 1)
example : Zipstream.crc32 [104, 101, 108, 108, 111, 10] = 0x363A3020 := by decide

-- zip64 extra with empty payload, descriptor-mode deflate entry
example :
    (Zipstream.buildEntry {flags := 8, method := 8, extra := [1, 0, 0, 0]}).map
      Zipstream.Entry.zip64 = .ok true := by decide
-- compressed size maxed out with no zip64 promotion
example :
    Zipstream.buildEntry {csize := 4294967295, extra := []} = .error .errFormat := by decide
-- promotion of both sizes, in order
example :
    (Zipstream.buildEntry
        { csize := 4294967295, usize := 4294967295,
          extra := [1, 0, 16, 0, 7, 0, 0, 0, 0, 0, 0, 0, 9, 0, 0, 0, 0, 0, 0, 0] }).map
      (fun e => (e.uncompressedSize64, e.compressedSize64)) = .ok (7, 9) := by decide
-- promoted field with fewer than 8 payload bytes
example :
    Zipstream.buildEntry {csize := 4294967295, extra := [1, 0, 4, 0, 7, 0, 0, 0]} =
      .error .errFormat := by decide
example : Zipstream.buildEntry {flags := 1} = .error .encrypted := by decide
example : Zipstream.buildEntry {flags := 8, method := 0} = .error .onlyDeflateDD := by decide
-- driver: central-directory signature terminates cleanly
example :
    Zipstream.next ⟨[0x50, 0x4b, 0x01, 0x02, 9, 9], false, none⟩ =
      (false, ⟨[9, 9], true, none⟩) := by decide
example :
    Zipstream.next ⟨[0x50, 0x4b, 0x03, 0x04, 9], false, none⟩ =
      (true, ⟨[9], false, none⟩) := by decide
example :
    Zipstream.next ⟨[1, 2, 3, 4, 9], false, none⟩ =
      (false, ⟨[9], false, some .errFormat⟩) := by decide
-- stored entry, declared csize 5, truncated source: clean EOF, 3 bytes
example :
    Zipstream.runStoredOpen {compressedSize64 := 5} [1, 2, 3] =
      .ok ([1, 2, 3], {compressedSize64 := 5, eof := true}, []) := by decide
